import Mathlib

/-!
# Verification of the quota aggregation & adaptive table rendering subsystem

Shallow embedding of the `/quota` extension: provider-result normalization
into `QuotaRow` records and the width-constrained table layout algorithm
(`renderQuotaTable`), together with the JWT payload decoder and the
Tiered-Model (Google) adapter control flow.

JavaScript strings are modelled as `List Char` of Unicode scalar values;
string indices and lengths are code points (exact on the Basic Multilingual
Plane, which covers every string the program manipulates).
-/

set_option linter.unusedVariables false

namespace Quota

/-- JavaScript string model: a list of Unicode scalar values. -/
abbrev JStr := List Char

/-- Embed a Lean string literal as a `JStr`. -/
def js (s : String) : JStr := s.data

/-- Modelled from the spec: `pi-tui`'s unicode width measurement is an
external collaborator; per the spec's visible-width semantics, control
characters are zero columns wide, East-Asian wide characters two, and all
other characters one. -/
def charWidth (c : Char) : Nat :=
  if c.toNat < 0x20 ∨ c.toNat = 0x7f then 0
  else if (0x1100 ≤ c.toNat ∧ c.toNat ≤ 0x115F) ∨ (0x2E80 ≤ c.toNat ∧ c.toNat ≤ 0xA4CF) ∨
      (0xAC00 ≤ c.toNat ∧ c.toNat ≤ 0xD7A3) ∨ (0xF900 ≤ c.toNat ∧ c.toNat ≤ 0xFAFF) ∨
      (0xFE30 ≤ c.toNat ∧ c.toNat ≤ 0xFE4F) ∨ (0xFF00 ≤ c.toNat ∧ c.toNat ≤ 0xFF60) ∨
      (0xFFE0 ≤ c.toNat ∧ c.toNat ≤ 0xFFE6) ∨ (0x20000 ≤ c.toNat ∧ c.toNat ≤ 0x3FFFD) then 2
  else 1

/-- Modelled from the spec: `pi-tui`'s `visibleWidth` — the display width of
a string, the sum of its characters' column widths. -/
def visibleWidth (s : JStr) : Nat := (s.map charWidth).sum

/-- Modelled from the spec: `pi-tui`'s `truncateToWidth` — the hard
truncation of a line to a display-width budget: the longest prefix whose
visible width does not exceed the budget. -/
def truncateToWidth (s : JStr) (maxWidth : Nat) : JStr :=
  match s with
  | [] => []
  | c :: cs => if charWidth c ≤ maxWidth then c :: truncateToWidth cs (maxWidth - charWidth c) else []

/-- JavaScript truthiness of an optional string: present and non-empty. -/
def jsTruthy (o : Option JStr) : Bool :=
  match o with
  | some s => s ≠ []
  | none => false

/-- JavaScript `a || b` for an optional string `a` and a string fallback:
falls through on `undefined` and on the empty string. -/
def jsOr (o : Option JStr) (dflt : JStr) : JStr :=
  match o with
  | some s => if s = [] then dflt else s
  | none => dflt

/-- JavaScript `a || b` where both sides are optional strings. -/
def jsOrOpt (o : Option JStr) (dflt : Option JStr) : Option JStr :=
  match o with
  | some s => if s = [] then dflt else some s
  | none => dflt

/-! ## Cell truncation (`truncateCell`, part_002 lines 407-413) -/

/-- Characters matched by the JS regex `[\r\n\t]+`. -/
def isRNT (c : Char) : Bool := c = '\r' ∨ c = '\n' ∨ c = '\t'

/-- Characters matched by the JS regex `[\u0000-\u001f\u007f]`. -/
def isCtrl (c : Char) : Bool := c.toNat < 0x20 ∨ c.toNat = 0x7f

mutual
/-- First normalization step of `truncateCell`: the JS
`value.replace(/[\r\n\t]+/g, " ")`, collapsing each maximal run of
CR/LF/TAB into a single space. -/
def collapseRNT : JStr → JStr
  | [] => []
  | c :: cs => if isRNT c then ' ' :: skipRNT cs else c :: collapseRNT cs

/-- Helper of `collapseRNT`: skip the rest of a CR/LF/TAB run. -/
def skipRNT : JStr → JStr
  | [] => []
  | c :: cs => if isRNT c then skipRNT cs else c :: collapseRNT cs
end

/-- Second normalization step of `truncateCell`: the JS
`.replace(/[\u0000-\u001f\u007f]/g, " ")`, mapping each control character
to a space. -/
def ctrlToSpace (s : JStr) : JStr := s.map (fun c => if isCtrl c then ' ' else c)

/-- The full normalization inside `truncateCell`. -/
def normalizeCell (s : JStr) : JStr := ctrlToSpace (collapseRNT s)

/-- `truncateCell` (part_002 lines 407-413): normalize control characters,
then truncate to `maxWidth` with a trailing ellipsis when truncation
occurred. Widths are non-negative here, so the JS guard `maxWidth <= 0`
is the `maxWidth = 0` case. -/
def truncateCell (value : JStr) (maxWidth : Nat) : JStr :=
  let normalized := normalizeCell value
  if maxWidth ≤ 0 then []
  else if normalized.length ≤ maxWidth then normalized
  else if maxWidth ≤ 1 then ['…']
  else normalized.take (maxWidth - 1) ++ ['…']

/-! ## Number formatting helpers

JavaScript renders IEEE doubles in decimal; the adapters only feed it
values parsed from JSON, which are modelled as rationals.  The claims never
inspect the digits, only which branch produced a value, so the formatters
below are straightforward exact renderings of the rational. -/

/-- Decimal digits of a natural number. -/
def natStr (n : Nat) : JStr := (toString n).data

/-- Decimal digits of an integer. -/
def intStr (n : ℤ) : JStr := (toString n).data

/-- JS `String(x)` on a number, modelled on ℚ (integers exactly, other
rationals as `num/den`). -/
def qToString (q : ℚ) : JStr :=
  if q.den = 1 then intStr q.num else intStr q.num ++ '/' :: natStr q.den

/-- The floor of a rational, written out so it evaluates by kernel
reduction (the denominator is positive, so integer division is the
floor). -/
def ratFloor (q : ℚ) : ℤ := q.num / q.den

/-- `ratFloor` agrees with the mathematical floor. -/
theorem ratFloor_eq (q : ℚ) : ratFloor q = ⌊q⌋ := by
  rw [Rat.floor_def]; rfl

/-- JS `Math.round`: round half toward positive infinity. -/
def jsRound (q : ℚ) : ℤ := ratFloor (q + 1 / 2)

/-- JS `x.toFixed(1)`: one decimal digit, ties resolved toward the larger
scaled integer (ECMA-262 `Number.prototype.toFixed`). -/
def toFixed1 (q : ℚ) : JStr :=
  let scaled : ℤ := ratFloor (q * 10 + 1 / 2)
  let a := scaled.natAbs
  (if scaled < 0 then ['-'] else []) ++ natStr (a / 10) ++ '.' :: natStr (a % 10)

/-- JS `x.toFixed(2)`: two decimal digits. -/
def toFixed2 (q : ℚ) : JStr :=
  let scaled : ℤ := ratFloor (q * 100 + 1 / 2)
  let a := scaled.natAbs
  (if scaled < 0 then ['-'] else []) ++ natStr (a / 100) ++ '.' :: natStr (a / 10 % 10) ++ natStr (a % 10)

/-! ## Progress bar (`renderProgressBar`, part_002 lines 415-424) -/

/-- `renderProgressBar` (part_002 lines 415-419): clamp the fraction into
[0,1], round `clamped * width` to the nearest integer, and emit that many
filled blocks followed by empty blocks. -/
def renderProgressBar (fraction : ℚ) (width : Nat := 8) : JStr :=
  let clamped : ℚ := max 0 (min 1 fraction)
  let filled := (jsRound (clamped * width)).toNat
  List.replicate filled '█' ++ List.replicate (width - filled) '░'

/-! ## Quota rows -/

/-- The normalized row model consumed by the layout engine
(part_002 lines 340-348). -/
structure QuotaRow where
  provider : JStr
  account : JStr
  plan : JStr
  metric : JStr
  value : JStr
  reset : JStr
  progressRemaining : Option ℚ := none
deriving DecidableEq, Repr

/-- `barValue` (part_002 lines 421-424): `"-"` when no remaining fraction
is present, else the 8-character progress bar. -/
def barValue (row : QuotaRow) : JStr :=
  match row.progressRemaining with
  | none => js "-"
  | some f => renderProgressBar f

/-- `padVisible` (part_002 lines 426-429): pad with spaces up to `width`
visible columns (JS `Math.max(0, width - vis)` is ℕ-subtraction here). -/
def padVisible (value : JStr) (width : Nat) : JStr :=
  value ++ List.replicate (width - visibleWidth value) ' '

/-! ## Table layout engine (`renderQuotaTable`, part_002 lines 431-482) -/

/-- The fixed column headers (part_002 line 433). -/
def headersList : List JStr :=
  [js "Provider", js "Account", js "Plan", js "Metric", js "Value", js "Bar", js "Reset/Note"]

/-- Per-column maximum width caps (part_002 line 435). -/
def maxColumnWidths : List Nat := [14, 18, 12, 14, 14, 8, 14]

/-- Per-column minimum width floors (part_002 line 436). -/
def minColumnWidths : List Nat := [8, 10, 8, 8, 8, 8, 8]

/-- The seven cells of one data row, in column order (part_002 line 434). -/
def rowCells (r : QuotaRow) : List JStr :=
  [r.provider, r.account, r.plan, r.metric, r.value, barValue r, r.reset]

/-- Maximum of a list of naturals (JS `Math.max` spread, seeded below with
the header width). -/
def listMax (l : List Nat) : Nat := l.foldr max 0

/-- Natural column widths (part_002 lines 438-441): content width capped at
the column maximum. -/
def initialWidths (rows : List QuotaRow) : List Nat :=
  headersList.mapIdx fun index header =>
    min (max (visibleWidth header) (listMax (rows.map fun r => visibleWidth ((rowCells r).getD index []))))
      (maxColumnWidths.getD index 0)

/-- `totalWidth` (part_002 line 443): column widths plus 3 per column
(borders/padding) plus 1. -/
def totalWidth (w : List Nat) : Nat := w.sum + w.length * 3 + 1

/-- The shrink priority order (part_002 line 445): column indices
Account, Value, Metric, Reset/Note, Provider, Plan. -/
def shrinkOrder : List Nat := [1, 4, 3, 6, 0, 2]

/-- One pass of the shrink loop's inner `for` (part_002 lines 448-454):
walk the order, decrement each column that sits above its floor by one,
and stop as soon as the budget is met. Returns the updated widths and the
`reduced` flag. -/
def shrinkPass (maxWidth : Nat) (w : List Nat) (reduced : Bool) : List Nat → List Nat × Bool
  | [] => (w, reduced)
  | i :: rest =>
    if minColumnWidths.getD i 0 < w.getD i 0 then
      let w' := w.set i (w.getD i 0 - 1)
      if totalWidth w' ≤ maxWidth then (w', true)
      else shrinkPass maxWidth w' true rest
    else shrinkPass maxWidth w reduced rest

/-- The outer `while (totalWidth() > maxWidth)` loop (part_002 lines
446-456), fuel-indexed; a pass that made no progress ends the loop.  Fuel
`w.sum + 1` always suffices (proved below). -/
def shrinkLoop (maxWidth : Nat) : Nat → List Nat → List Nat
  | 0, w => w
  | fuel + 1, w =>
    if totalWidth w ≤ maxWidth then w
    else
      match shrinkPass maxWidth w false shrinkOrder with
      | (w', true) => shrinkLoop maxWidth fuel w'
      | (w', false) => w'

/-- The final column widths: the natural widths, shrunk when a non-zero
target width is supplied and exceeded (part_002 lines 444-457).  The JS
guard `if (maxWidth && totalWidth() > maxWidth)` treats `0`/`undefined` as
absent. -/
def finalWidths (rows : List QuotaRow) (maxWidth : Option Nat) : List Nat :=
  let w := initialWidths rows
  match maxWidth with
  | some m => if 0 < m ∧ m < totalWidth w then shrinkLoop m (totalWidth w) w else w
  | none => w

/-- The border line (part_002 line 459):
`+--...--+--...--+` with `width + 2` dashes per column. -/
def sepLine (widths : List Nat) : JStr :=
  js "+" ++ List.intercalate (js "+") (widths.map fun w => List.replicate (w + 2) '-') ++ js "+"

/-- JS `maxWidth ? truncateToWidth(s, maxWidth) : s`: the final hard
truncation, skipped when the budget is absent or `0` (falsy). -/
def jsMaxTrunc (maxWidth : Option Nat) (s : JStr) : JStr :=
  match maxWidth with
  | some m => if m = 0 then s else truncateToWidth s m
  | none => s

/-- Modelled from the spec: `theme.fg` belongs to the external presentation
shell; styling does not change the visible text, so it is the identity on
the text. -/
def themeFg (_color : JStr) (s : JStr) : JStr := s

/-- Modelled from the spec: `theme.bold`, identity on the text as well. -/
def themeBold (s : JStr) : JStr := s

/-- `renderRow` (part_002 lines 460-464): truncate each cell to its column
width, pad to visible width, join with ` | ` borders, and hard-truncate the
assembled line. -/
def renderRow (maxWidth : Option Nat) (widths : List Nat) (cols : List JStr) : JStr :=
  let clamped := cols.mapIdx fun i c =>
    padVisible (truncateToWidth (truncateCell c (widths.getD i 0)) (widths.getD i 0)) (widths.getD i 0)
  jsMaxTrunc maxWidth (js "| " ++ List.intercalate (js " | ") clamped ++ js " |")

/-- The data-row section (part_002 lines 471-478): one rendered line per
row, preceded by a border line whenever the provider changes from the
previous row (`lastProvider`). -/
def dataLines (maxWidth : Option Nat) (widths : List Nat) (separator : JStr) :
    List QuotaRow → Option JStr → List JStr
  | [], _ => []
  | row :: rest, lastProvider =>
    (match lastProvider with
     | some lp => if row.provider ≠ lp then [themeFg (js "border") (jsMaxTrunc maxWidth separator)] else []
     | none => []) ++
    renderRow maxWidth widths (rowCells row) ::
      dataLines maxWidth widths separator rest (some row.provider)

/-- `renderQuotaTable` (part_002 lines 431-482): title, border, header row,
border, data rows with provider-group separators, closing border. -/
def renderQuotaTable (rows : List QuotaRow) (maxWidth : Option Nat) : List JStr :=
  let widths := finalWidths rows maxWidth
  let separator := sepLine widths
  [themeFg (js "accent") (themeBold (js "Provider Quotas")),
   themeFg (js "border") (jsMaxTrunc maxWidth separator),
   themeFg (js "accent") (renderRow maxWidth widths headersList),
   themeFg (js "border") (jsMaxTrunc maxWidth separator)] ++
  dataLines maxWidth widths separator rows none ++
  [themeFg (js "border") (jsMaxTrunc maxWidth separator)]

/-! ## Credential records and provider response shapes (part_002 lines 21-104) -/

/-- One provider's credential record in `auth.json`
(part_002 lines 21-31). -/
structure AuthProviderConfig where
  access : Option JStr := none
  refresh : Option JStr := none
  projectId : Option JStr := none
  email : Option JStr := none
  accountId : Option JStr := none
  plan : Option JStr := none
  subscriptionPlan : Option JStr := none
  login : Option JStr := none
deriving DecidableEq, Repr

/-- `getAccountHint` (part_002 lines 113-115):
`config.email || config.login || config.accountId || provider`. -/
def getAccountHint (provider : JStr) (config : AuthProviderConfig) : JStr :=
  jsOr config.email (jsOr config.login (jsOr config.accountId provider))

/-- One named quota bucket in a Subscription-Snapshot response
(part_002 lines 73-78). -/
structure QuotaSnapshot where
  entitlement : Option ℚ := none
  remaining : Option ℚ := none
  percent_remaining : Option ℚ := none
  unlimited : Option Bool := none
deriving DecidableEq, Repr

/-- The Subscription-Snapshot (github-copilot) response (part_002 lines
80-87); the snapshot mapping is an association list in entry order. -/
structure CopilotUserResponse where
  login : JStr := []
  copilot_plan : Option JStr := none
  sku : Option JStr := none
  access_type_sku : Option JStr := none
  quota_reset_date_utc : Option JStr := none
  quota_snapshots : Option (List (JStr × QuotaSnapshot)) := none
deriving DecidableEq, Repr

/-- Per-model quota info in a Tiered-Model response
(part_002 lines 37-41). -/
structure QuotaInfo where
  remainingFraction : Option ℚ := none
  resetTime : Option JStr := none
  isExhausted : Option Bool := none
deriving DecidableEq, Repr

/-- One model entry (part_002 lines 43-45). -/
structure ModelInfo where
  quotaInfo : Option QuotaInfo := none
deriving DecidableEq, Repr

/-- A group of recommended model ids (part_002 lines 47-49). -/
structure ModelSortGroup where
  modelIds : Option (List JStr) := none
deriving DecidableEq, Repr

/-- A model sort (part_002 lines 51-53). -/
structure ModelSort where
  groups : Option (List ModelSortGroup) := none
deriving DecidableEq, Repr

/-- The Tiered-Model step-2 response (part_002 lines 55-58). -/
structure FetchAvailableModelsResponse where
  models : Option (List (JStr × ModelInfo)) := none
  agentModelSorts : Option (List ModelSort) := none
deriving DecidableEq, Repr

/-- Tier info in the Tiered-Model step-1 response (part_002 lines 60-63). -/
structure GoogleTierInfo where
  id : Option JStr := none
  name : Option JStr := none
deriving DecidableEq, Repr

/-- The `cloudaicompanionProject` field: `string | { id?: string }`
(part_002 line 67). -/
inductive CloudProject where
  | str (s : JStr)
  | obj (id : Option JStr)
deriving DecidableEq, Repr

/-- The Tiered-Model step-1 response (part_002 lines 65-71). -/
structure GoogleLoadCodeAssistResponse where
  availablePromptCredits : Option ℚ := none
  cloudaicompanionProject : Option CloudProject := none
  plan : Option JStr := none
  subscriptionPlan : Option JStr := none
  currentTier : Option GoogleTierInfo := none
deriving DecidableEq, Repr

/-- One rate window read from the Header-Probe response headers
(part_002 lines 89-94). -/
structure CodexRateWindow where
  usedPercent : Option ℚ := none
  resetAt : Option ℚ := none
  resetAfterSeconds : Option ℚ := none
  windowMinutes : Option ℚ := none
deriving DecidableEq, Repr

/-- The Header-Probe quota state (part_002 lines 96-104). -/
structure CodexProbeQuota where
  planType : Option JStr := none
  primary : Option CodexRateWindow := none
  secondary : Option CodexRateWindow := none
  primaryOverSecondaryPercent : Option ℚ := none
  creditsUnlimited : Option Bool := none
  creditsHasCredits : Option Bool := none
  creditsBalance : Option ℚ := none
deriving DecidableEq, Repr

/-- The Header-Probe adapter's successful result (part_002 lines 306-311). -/
structure CodexProbeData where
  accountId : JStr := []
  emailFromToken : Option JStr := none
  planFromToken : Option JStr := none
  quota : CodexProbeQuota := {}
deriving DecidableEq, Repr

/-! ## The Tiered-Model adapter control flow (`fetchGoogleQuota`,
part_002 lines 159-219)

The network transport is external; the adapter is embedded as a pure
function of the two HTTP responses it would receive. -/

/-- An HTTP response as the adapter observes it: the `ok` flag (2xx), the
status code, and the parsed JSON body. -/
structure HttpResp (α : Type) where
  ok : Bool
  status : Nat
  body : α
deriving Repr

/-- The adapter's return value (part_002 line 218). -/
structure GoogleQuotaResult where
  loadData : GoogleLoadCodeAssistResponse
  modelsData : Option FetchAvailableModelsResponse := none
  modelsError : Option JStr := none
deriving DecidableEq, Repr

/-- The soft error message recorded when the step-2 fetch fails
(part_002 line 214). -/
def googleModelsErrorMsg (status : Nat) : JStr :=
  js "fetchAvailableModels failed (" ++ natStr status ++ js ")"

/-- Project-id extraction from the step-1 body (part_002 lines 195-199):
`typeof p === "string" ? p : p?.id`. -/
def cloudProjectId : Option CloudProject → Option JStr
  | some (.str s) => some s
  | some (.obj id) => id
  | none => none

/-- `fetchGoogleQuota` (part_002 lines 159-219) as a function of the two
responses: a missing access token or a non-2xx step-1 response raises
(`Except.error`); a non-2xx step-2 response is recorded as a soft
`modelsError` string; step 2 is skipped entirely when no project id
resolves. -/
def fetchGoogleQuota (config : AuthProviderConfig)
    (loadResp : HttpResp GoogleLoadCodeAssistResponse)
    (modelsResp : HttpResp FetchAvailableModelsResponse) :
    Except JStr GoogleQuotaResult :=
  if ¬ jsTruthy config.access then .error (js "missing access token")
  else if ¬ loadResp.ok then .error (js "loadCodeAssist failed (" ++ natStr loadResp.status ++ js ")")
  else
    let loadData := loadResp.body
    let resolvedProjectId := jsOrOpt config.projectId (cloudProjectId loadData.cloudaicompanionProject)
    if jsTruthy resolvedProjectId then
      if modelsResp.ok then
        .ok { loadData := loadData, modelsData := some modelsResp.body, modelsError := none }
      else
        .ok { loadData := loadData, modelsData := none,
              modelsError := some (googleModelsErrorMsg modelsResp.status) }
    else .ok { loadData := loadData, modelsData := none, modelsError := none }

/-! ## Row normalization (the quota command's widget body,
part_002 lines 350-405 and 554-667) -/

/-- Modelled from the spec: `formatDateUtc` (part_002 lines 350-356)
renders an ISO timestamp through the JS `Date` runtime and locale
formatting; modelled as returning the raw timestamp text (claims never
inspect formatted dates). -/
def formatDateUtc (value : JStr) : JStr := value

/-- `formatEpochUtc` (part_002 lines 358-365): `0`/absent epoch seconds are
falsy and yield `"unknown"`; otherwise the locale rendering of the date is
modelled (from the spec) as the rendered number. -/
def formatEpochUtc (seconds : Option ℚ) : JStr :=
  match seconds with
  | none => js "unknown"
  | some s => if s = 0 then js "unknown" else qToString s

/-- Lexicographic comparison of strings by code point; models the JS
`a.localeCompare(b)` sort key for the plain ASCII model ids it is applied
to. -/
def jstrLe : JStr → JStr → Bool
  | [], _ => true
  | _ :: _, [] => false
  | a :: as, b :: bs =>
    if a.toNat < b.toNat then true
    else if b.toNat < a.toNat then false
    else jstrLe as bs

/-- Ordered insertion for `sortBy`. -/
def insertBy {α : Type} (le : α → α → Bool) (a : α) : List α → List α
  | [] => [a]
  | b :: l => if le a b then a :: b :: l else b :: insertBy le a l

/-- Insertion sort; models `Array.prototype.sort` with a comparator (the
sorted keys here are distinct JS object keys, so stability is moot). -/
def sortBy {α : Type} (le : α → α → Bool) (l : List α) : List α :=
  l.foldr (insertBy le) []

/-- `collectGoogleModelRows` (part_002 lines 367-396): one row per
quota-bearing model that is recommended or below full remaining quota,
sorted by model id. -/
def collectGoogleModelRows (provider account plan : JStr)
    (modelsData : Option FetchAvailableModelsResponse) : List QuotaRow :=
  match modelsData.bind (·.models) with
  | none => []
  | some models =>
    let recommendedIds : List JStr :=
      (((modelsData.bind (·.agentModelSorts)).bind (·.head?)).bind (·.groups)).elim []
        (fun gs => gs.foldr (fun g acc => g.modelIds.getD [] ++ acc) [])
    let relevantModels :=
      sortBy (fun a b => jstrLe a.1 b.1)
        (models.filter fun p =>
          match p.2.quotaInfo with
          | none => false
          | some qi =>
            decide (p.1 ∈ recommendedIds) ||
              (match qi.remainingFraction with
               | some rf => decide (rf < 1)
               | none => false))
    relevantModels.map fun p =>
      let remainingFraction := (p.2.quotaInfo.bind (·.remainingFraction))
      { provider := provider, account := account, plan := plan, metric := p.1,
        value := match remainingFraction with
          | some rf => toFixed1 (rf * 100) ++ js "%"
          | none => js "N/A",
        reset :=
          if jsTruthy (p.2.quotaInfo.bind (·.resetTime)) then
            formatDateUtc ((p.2.quotaInfo.bind (·.resetTime)).getD [])
          else js "unknown",
        progressRemaining := remainingFraction }

/-- `codexWindowFields` (part_002 lines 398-405): `"n/a"`/`"unknown"` when
the window or its used-percent is missing, else the remaining percentage
(used clamped into [0,100]) and the formatted reset epoch. -/
def codexWindowFields : Option CodexRateWindow → JStr × JStr
  | none => (js "n/a", js "unknown")
  | some w =>
    match w.usedPercent with
    | none => (js "n/a", js "unknown")
    | some up =>
      let used : ℚ := max 0 (min 100 up)
      (toFixed1 (100 - used) ++ js "% rem", formatEpochUtc w.resetAt)

/-- The copilot row account: `data.login || getAccountHint(provider, config)`
(part_002 line 559). -/
def copilotAccount (provider : JStr) (config : AuthProviderConfig)
    (data : CopilotUserResponse) : JStr :=
  if data.login = [] then getAccountHint provider config else data.login

/-- The copilot row plan: `data.copilot_plan || data.sku || "unknown"`
(part_002 line 560). -/
def copilotPlan (data : CopilotUserResponse) : JStr :=
  jsOr data.copilot_plan (jsOr data.sku (js "unknown"))

/-- The copilot branch of the row builder (part_002 lines 557-591). -/
def copilotRows (provider : JStr) (config : AuthProviderConfig)
    (data : CopilotUserResponse) : List QuotaRow :=
  let account := copilotAccount provider config data
  let plan := copilotPlan data
  (if jsTruthy data.access_type_sku then
    [{ provider := provider, account := account, plan := plan, metric := js "sku",
       value := data.access_type_sku.getD [], reset := js "-" }]
   else []) ++
  (match data.quota_snapshots with
   | some snaps =>
     snaps.map fun p =>
       let snapshot := p.2
       let value :=
         if snapshot.unlimited = some true then js "Unlimited"
         else
           match snapshot.percent_remaining, snapshot.remaining, snapshot.entitlement with
           | some pr, some r, some e =>
             toFixed1 pr ++ js "% (" ++ qToString r ++ js "/" ++ qToString e ++ js ")"
           | _, _, _ => js "Partial snapshot data"
       { provider := provider, account := account, plan := plan, metric := p.1, value := value,
         reset :=
           if jsTruthy data.quota_reset_date_utc then
             formatDateUtc (data.quota_reset_date_utc.getD [])
           else js "-" }
   | none =>
     [{ provider := provider, account := account, plan := plan, metric := js "quota",
        value := js "No snapshot data", reset := js "-" }])

/-- The google row account: `config.email || getAccountHint(provider, config)`
(part_002 line 595). -/
def googleAccount (provider : JStr) (config : AuthProviderConfig) : JStr :=
  jsOr config.email (getAccountHint provider config)

/-- The google row plan (part_002 lines 596-601):
tier name, tier id, plan, subscription plan, `"unknown"`. -/
def googlePlan (loadData : GoogleLoadCodeAssistResponse) : JStr :=
  jsOr (loadData.currentTier.bind (·.name))
    (jsOr (loadData.currentTier.bind (·.id))
      (jsOr loadData.plan (jsOr loadData.subscriptionPlan (js "unknown"))))

/-- The google (antigravity / gemini-cli) branch of the row builder
(part_002 lines 593-624). -/
def googleRows (provider : JStr) (config : AuthProviderConfig)
    (d : GoogleQuotaResult) : List QuotaRow :=
  let account := googleAccount provider config
  let plan := googlePlan d.loadData
  (match d.loadData.availablePromptCredits with
   | some c =>
     [{ provider := provider, account := account, plan := plan, metric := js "prompt_credits",
        value := qToString c, reset := js "-" }]
   | none => []) ++
  collectGoogleModelRows provider account plan d.modelsData ++
  (if jsTruthy d.modelsError then
    [{ provider := provider, account := account, plan := plan, metric := js "model_quotas",
       value := d.modelsError.getD [], reset := js "-" }]
   else []) ++
  (if d.loadData.availablePromptCredits = none ∧ (d.modelsData.bind (·.models)) = none ∧
      ¬ jsTruthy d.modelsError then
    [{ provider := provider, account := account, plan := plan, metric := js "quota",
       value := js "No quota data", reset := js "-" }]
   else [])

/-- The openai-codex branch of the row builder (part_002 lines 626-654). -/
def codexRows (provider : JStr) (config : AuthProviderConfig)
    (data : CodexProbeData) : List QuotaRow :=
  let account :=
    jsOr data.emailFromToken
      (jsOr config.email
        (if data.accountId = [] then getAccountHint provider config else data.accountId))
  let plan := jsOr data.quota.planType (jsOr data.planFromToken (js "unknown"))
  let primary := codexWindowFields data.quota.primary
  let secondary := codexWindowFields data.quota.secondary
  [{ provider := provider, account := account, plan := plan, metric := js "codex_primary",
     value := primary.1, reset := primary.2 },
   { provider := provider, account := account, plan := plan, metric := js "codex_secondary",
     value := secondary.1, reset := secondary.2 }] ++
  (match data.quota.primaryOverSecondaryPercent with
   | some r =>
     [{ provider := provider, account := account, plan := plan,
        metric := js "primary_over_secondary", value := toFixed1 r ++ js "%", reset := js "-" }]
   | none => []) ++
  (if data.quota.creditsUnlimited = some true then
    [{ provider := provider, account := account, plan := plan, metric := js "credits",
       value := js "Unlimited", reset := js "-" }]
   else if data.quota.creditsHasCredits = some true then
    match data.quota.creditsBalance with
    | some bal =>
      [{ provider := provider, account := account, plan := plan, metric := js "credits",
         value := toFixed2 bal, reset := js "-" }]
    | none => []
   else [])

/-- Which Google IDE protocol a google-tagged result used
(part_002 line 319). -/
inductive GoogleKind where
  | antigravity
  | geminiCli
deriving DecidableEq, Repr

/-- The settled per-provider adapter result (part_002 lines 314-338). -/
inductive ProviderResult where
  | copilot (provider : JStr) (config : AuthProviderConfig) (data : CopilotUserResponse)
  | google (provider : JStr) (config : AuthProviderConfig) (kind : GoogleKind)
      (data : GoogleQuotaResult)
  | openaiCodex (provider : JStr) (config : AuthProviderConfig) (data : CodexProbeData)
  | error (provider : JStr) (config : AuthProviderConfig) (err : JStr)
  | unsupported (provider : JStr) (config : AuthProviderConfig)
deriving DecidableEq, Repr

/-- The rows one settled adapter result contributes
(part_002 lines 556-663). -/
def resultRows : ProviderResult → List QuotaRow
  | .copilot provider config data => copilotRows provider config data
  | .google provider config _ data => googleRows provider config data
  | .openaiCodex provider config data => codexRows provider config data
  | .error provider config err =>
    [{ provider := provider, account := getAccountHint provider config,
       plan := jsOr config.plan (jsOr config.subscriptionPlan (js "unknown")),
       metric := js "error", value := js "Failed to fetch quota: " ++ err, reset := js "-" }]
  | .unsupported provider config =>
    [{ provider := provider, account := getAccountHint provider config,
       plan := jsOr config.plan (jsOr config.subscriptionPlan (js "unknown")),
       metric := js "quota", value := js "Unavailable for this provider", reset := js "-" }]

/-- All rows produced by aggregation (part_002 lines 554-663). -/
def buildRows (results : List ProviderResult) : List QuotaRow :=
  results.foldr (fun entry acc => resultRows entry ++ acc) []

/-- The placeholder row pushed when aggregation produced nothing
(part_002 line 666). -/
def placeholderRow : QuotaRow :=
  { provider := js "-", account := js "-", plan := js "-", metric := js "quota",
    value := js "No data", reset := js "-" }

/-- The row set handed to the layout engine (part_002 lines 665-667): the
aggregated rows, or the single placeholder row when there are none. -/
def finalRows (results : List ProviderResult) : List QuotaRow :=
  let rows := buildRows results
  if rows.length = 0 then [placeholderRow] else rows

/-! ## JWT payload decoding (`decodeJwtPayload`, part_002 lines 117-130)

`Buffer.from(x, "base64")`, `Buffer.toString("utf8")` and `JSON.parse` are
runtime primitives; they are modelled below as total/partial Lean
functions with the same failure behavior (base64 and UTF-8 decoding are
lossy and never fail; only JSON parsing can fail, and that failure is what
the source's `try/catch` swallows). -/

/-- Accumulator worker for `jsSplit`. -/
def jsSplitGo (sep : Char) : JStr → JStr → List JStr
  | [], acc => [acc.reverse]
  | c :: cs, acc => if c = sep then acc.reverse :: jsSplitGo sep cs [] else jsSplitGo sep cs (c :: acc)

/-- JS `String.prototype.split` with a single-character separator: always
returns one more part than there are separators (`"" → [""]`). -/
def jsSplit (sep : Char) (s : JStr) : List JStr := jsSplitGo sep s []

/-- The base64url→base64 character mapping (part_002 line 123): every
dash becomes a plus and every underscore a slash. -/
def b64urlToB64 (s : JStr) : JStr :=
  s.map fun c => if c = '-' then '+' else if c = '_' then '/' else c

/-- Value of one base64 alphabet character. -/
def sixBit (c : Char) : Option Nat :=
  if 'A' ≤ c ∧ c ≤ 'Z' then some (c.toNat - 65)
  else if 'a' ≤ c ∧ c ≤ 'z' then some (c.toNat - 97 + 26)
  else if '0' ≤ c ∧ c ≤ '9' then some (c.toNat - 48 + 52)
  else if c = '+' then some 62
  else if c = '/' then some 63
  else none

/-- Regroup 6-bit values into bytes; a trailing partial group decodes to
its complete bytes only. -/
def toBytes : List Nat → List Nat
  | a :: b :: c :: d :: rest =>
    (a * 4 + b / 16) :: ((b % 16) * 16 + c / 4) :: ((c % 4) * 64 + d) :: toBytes rest
  | [a, b] => [a * 4 + b / 16]
  | [a, b, c] => [a * 4 + b / 16, (b % 16) * 16 + c / 4]
  | _ => []

/-- Modelled from the spec: Node's `Buffer.from(x, "base64")` is lenient —
characters outside the alphabet (including padding `=`) are skipped and a
trailing partial group is truncated; it never throws. -/
def b64Bytes (s : JStr) : List Nat := toBytes (s.filterMap sixBit)

/-- The scalar value `n` as a character, or U+FFFD when `n` is a surrogate
or out of range. -/
def scalarOrRepl (n : Nat) : Char :=
  if n < 0xD800 ∨ (0xDFFF < n ∧ n < 0x110000) then Char.ofNat n else '�'

/-- Fuel-indexed worker for `utf8Decode`; fuel at least the byte-list
length always suffices (one byte of input is consumed per step). -/
def utf8DecodeGo : Nat → List Nat → JStr
  | 0, _ => []
  | _, [] => []
  | fuel + 1, b1 :: rest =>
    if b1 < 0x80 then Char.ofNat b1 :: utf8DecodeGo fuel rest
    else if 0xC2 ≤ b1 ∧ b1 ≤ 0xDF then
      match rest with
      | b2 :: rest2 =>
        if 0x80 ≤ b2 ∧ b2 ≤ 0xBF then
          Char.ofNat ((b1 - 0xC0) * 64 + (b2 - 0x80)) :: utf8DecodeGo fuel rest2
        else '�' :: utf8DecodeGo fuel (b2 :: rest2)
      | [] => ['�']
    else if 0xE0 ≤ b1 ∧ b1 ≤ 0xEF then
      match rest with
      | b2 :: b3 :: rest3 =>
        if (0x80 ≤ b2 ∧ b2 ≤ 0xBF) ∧ (0x80 ≤ b3 ∧ b3 ≤ 0xBF) then
          let cp := (b1 - 0xE0) * 4096 + (b2 - 0x80) * 64 + (b3 - 0x80)
          (if 0x800 ≤ cp then scalarOrRepl cp else '�') :: utf8DecodeGo fuel rest3
        else '�' :: utf8DecodeGo fuel (b2 :: b3 :: rest3)
      | _ => ['�']
    else if 0xF0 ≤ b1 ∧ b1 ≤ 0xF4 then
      match rest with
      | b2 :: b3 :: b4 :: rest4 =>
        if (0x80 ≤ b2 ∧ b2 ≤ 0xBF) ∧ (0x80 ≤ b3 ∧ b3 ≤ 0xBF) ∧ (0x80 ≤ b4 ∧ b4 ≤ 0xBF) then
          let cp := (b1 - 0xF0) * 262144 + (b2 - 0x80) * 4096 + (b3 - 0x80) * 64 + (b4 - 0x80)
          (if 0x10000 ≤ cp then scalarOrRepl cp else '�') :: utf8DecodeGo fuel rest4
        else '�' :: utf8DecodeGo fuel (b2 :: b3 :: b4 :: rest4)
      | _ => ['�']
    else '�' :: utf8DecodeGo fuel rest

/-- Modelled from the spec: Node's lossy UTF-8 decoding
(`Buffer.toString("utf8")`); malformed sequences become U+FFFD and the
decoder never fails. -/
def utf8Decode (bytes : List Nat) : JStr := utf8DecodeGo bytes.length bytes

/-- A JSON value, the result type of the modelled `JSON.parse`. -/
inductive Json where
  | null
  | bool (b : Bool)
  | num (q : ℚ)
  | str (s : JStr)
  | arr (elems : List Json)
  | obj (fields : List (JStr × Json))
deriving Inhabited

/-- JSON whitespace. -/
def isJsonWs (c : Char) : Bool := c = ' ' ∨ c = '\t' ∨ c = '\n' ∨ c = '\r'

/-- Skip JSON whitespace. -/
def skipWs (s : JStr) : JStr := s.dropWhile isJsonWs

/-- Value of one hexadecimal digit. -/
def hexVal (c : Char) : Option Nat :=
  if c.isDigit then some (c.toNat - 48)
  else if 'a' ≤ c ∧ c ≤ 'f' then some (c.toNat - 97 + 10)
  else if 'A' ≤ c ∧ c ≤ 'F' then some (c.toNat - 65 + 10)
  else none

/-- One-character JSON string escapes. -/
def escChar (c : Char) : Option Char :=
  if c = '"' then some '"'
  else if c = '\\' then some '\\'
  else if c = '/' then some '/'
  else if c = 'b' then some (Char.ofNat 8)
  else if c = 'f' then some (Char.ofNat 12)
  else if c = 'n' then some '\n'
  else if c = 'r' then some '\r'
  else if c = 't' then some '\t'
  else none

/-- Parse the remainder of a JSON string literal (after the opening
quote); fails on unescaped control characters and bad escapes. -/
def parseStringRest : JStr → Option (JStr × JStr)
  | [] => none
  | '"' :: rest => some ([], rest)
  | '\\' :: 'u' :: h1 :: h2 :: h3 :: h4 :: rest => do
    let v1 ← hexVal h1
    let v2 ← hexVal h2
    let v3 ← hexVal h3
    let v4 ← hexVal h4
    let p ← parseStringRest rest
    pure (scalarOrRepl (v1 * 4096 + v2 * 256 + v3 * 16 + v4) :: p.1, p.2)
  | '\\' :: c :: rest => do
    let e ← escChar c
    let p ← parseStringRest rest
    pure (e :: p.1, p.2)
  | c :: rest =>
    if c.toNat < 0x20 then none
    else (parseStringRest rest).map fun p => (c :: p.1, p.2)

/-- Digits to a natural number. -/
def digitsToNat (l : JStr) : Nat := l.foldl (fun acc c => acc * 10 + (c.toNat - 48)) 0

/-- Parse a JSON number (sign, integer digits, optional fraction, optional
exponent) as an exact rational. -/
def parseNumber (s : JStr) : Option (ℚ × JStr) :=
  let signed := match s with
    | '-' :: r => (true, r)
    | _ => (false, s)
  let neg := signed.1
  let s1 := signed.2
  let intDigits := s1.takeWhile Char.isDigit
  if intDigits.isEmpty then none
  else
    let s2 := s1.drop intDigits.length
    let withFrac : Option (JStr × JStr) :=
      match s2 with
      | '.' :: r =>
        let fd := r.takeWhile Char.isDigit
        if fd.isEmpty then none else some (fd, r.drop fd.length)
      | _ => some ([], s2)
    match withFrac with
    | none => none
    | some (fracDigits, s3) =>
      let withExp : Option (ℤ × JStr) :=
        match s3 with
        | c :: r =>
          if c = 'e' ∨ c = 'E' then
            let esigned := match r with
              | '+' :: rr => (false, rr)
              | '-' :: rr => (true, rr)
              | _ => (false, r)
            let ed := esigned.2.takeWhile Char.isDigit
            if ed.isEmpty then none
            else
              some ((if esigned.1 then -(digitsToNat ed : ℤ) else (digitsToNat ed : ℤ)),
                esigned.2.drop ed.length)
          else some (0, s3)
        | [] => some (0, s3)
      match withExp with
      | none => none
      | some (e, s4) =>
        let mantissa : ℚ :=
          (digitsToNat intDigits : ℚ) + (digitsToNat fracDigits : ℚ) / ((10 : ℚ) ^ fracDigits.length)
        let mag : ℚ := mantissa * (10 : ℚ) ^ e
        some ((if neg then -mag else mag), s4)

mutual
/-- Modelled from the spec: the recursive core of `JSON.parse`, fuel-indexed
(fuel `2·length + 4` always suffices for the inputs fed to it). -/
def parseValue : Nat → JStr → Option (Json × JStr)
  | 0, _ => none
  | fuel + 1, s =>
    match skipWs s with
    | [] => none
    | 'n' :: 'u' :: 'l' :: 'l' :: rest => some (.null, rest)
    | 't' :: 'r' :: 'u' :: 'e' :: rest => some (.bool true, rest)
    | 'f' :: 'a' :: 'l' :: 's' :: 'e' :: rest => some (.bool false, rest)
    | '"' :: rest => (parseStringRest rest).map fun p => (.str p.1, p.2)
    | '[' :: rest =>
      (match skipWs rest with
       | ']' :: rest2 => some (.arr [], rest2)
       | s1 => parseArrayItems fuel [] s1)
    | '\x7b' :: rest =>
      (match skipWs rest with
       | '\x7d' :: rest2 => some (.obj [], rest2)
       | s1 => parseObjItems fuel [] s1)
    | c :: rest =>
      if c = '-' ∨ c.isDigit then (parseNumber (c :: rest)).map fun p => (.num p.1, p.2)
      else none

/-- Comma-separated JSON array items up to the closing bracket. -/
def parseArrayItems : Nat → List Json → JStr → Option (Json × JStr)
  | 0, _, _ => none
  | fuel + 1, acc, s =>
    match parseValue fuel s with
    | none => none
    | some (v, rest) =>
      match skipWs rest with
      | ',' :: rest2 => parseArrayItems fuel (v :: acc) rest2
      | ']' :: rest2 => some (.arr (v :: acc).reverse, rest2)
      | _ => none

/-- Comma-separated JSON object members up to the closing brace. -/
def parseObjItems : Nat → List (JStr × Json) → JStr → Option (Json × JStr)
  | 0, _, _ => none
  | fuel + 1, acc, s =>
    match skipWs s with
    | '"' :: rest =>
      (match parseStringRest rest with
       | none => none
       | some (key, rest1) =>
         match skipWs rest1 with
         | ':' :: rest2 =>
           (match parseValue fuel rest2 with
            | none => none
            | some (v, rest3) =>
              match skipWs rest3 with
              | ',' :: rest4 => parseObjItems fuel ((key, v) :: acc) rest4
              | '\x7d' :: rest4 => some (.obj ((key, v) :: acc).reverse, rest4)
              | _ => none)
         | _ => none)
    | _ => none
end

/-- Modelled from the spec: `JSON.parse` — parse one JSON value and require
only trailing whitespace after it; returns `none` exactly where the runtime
primitive would throw. -/
def jsonParse (s : JStr) : Option Json :=
  match parseValue (2 * s.length + 4) s with
  | some (v, rest) => if skipWs rest = [] then some v else none
  | none => none

/-- The decoded text of a token's middle segment (part_002 lines 123-125):
base64url→base64 mapping, `=`-padding to a multiple of 4, lenient base64
decoding, lossy UTF-8 decoding. -/
def jwtMiddleJson (token : JStr) : JStr :=
  let base64 := b64urlToB64 ((jsSplit '.' token).getD 1 [])
  let padded := base64 ++ List.replicate ((4 - base64.length % 4) % 4) '='
  utf8Decode (b64Bytes padded)

/-- `decodeJwtPayload` (part_002 lines 117-130): absent (or empty, falsy)
token and non-3-segment tokens yield `none` up front; otherwise the middle
segment is decoded and JSON-parsed, the `try/catch` turning any parse
failure into `none`. -/
def decodeJwtPayload : Option JStr → Option Json
  | none => none
  | some token =>
    if token = [] then none
    else
      let parts := jsSplit '.' token
      if parts.length ≠ 3 then none
      else jsonParse (jwtMiddleJson token)


/-! # Theorems

Supporting lemmas first, then one theorem per claim (with witnesses and
counterexamples where required). -/

/-- CR, LF and TAB are control characters. -/
theorem isRNT_false_of_isCtrl_false {c : Char} (h : isCtrl c = false) : isRNT c = false := by
  simp only [isCtrl, decide_eq_false_iff_not] at h
  simp only [isRNT, decide_eq_false_iff_not]
  rintro (rfl | rfl | rfl)
  · exact h (Or.inl (by decide))
  · exact h (Or.inl (by decide))
  · exact h (Or.inl (by decide))

/-- `collapseRNT` does not change a string free of CR/LF/TAB. -/
theorem collapseRNT_id {s : JStr} (h : ∀ c ∈ s, isRNT c = false) : collapseRNT s = s := by
  induction s with
  | nil => rfl
  | cons c cs ih =>
    have hc : isRNT c = false := h c (List.mem_cons_self c cs)
    simp only [collapseRNT, hc, Bool.false_eq_true, if_false, List.cons.injEq, true_and]
    exact ih fun d hd => h d (List.mem_cons_of_mem _ hd)

/-- `ctrlToSpace` does not change a control-free string. -/
theorem ctrlToSpace_id {s : JStr} (h : ∀ c ∈ s, isCtrl c = false) : ctrlToSpace s = s := by
  induction s with
  | nil => rfl
  | cons c cs ih =>
    have hc : isCtrl c = false := h c (List.mem_cons_self c cs)
    simp only [ctrlToSpace, List.map_cons, hc, Bool.false_eq_true, if_false, List.cons.injEq,
      true_and]
    exact ih fun d hd => h d (List.mem_cons_of_mem _ hd)

/-- Non-control characters occupy at least one column. -/
theorem one_le_charWidth {c : Char} (h : isCtrl c = false) : 1 ≤ charWidth c := by
  simp only [isCtrl, decide_eq_false_iff_not] at h
  unfold charWidth
  rw [if_neg h]
  split <;> omega

/-- For control-free strings the code-point count is at most the visible
width. -/
theorem length_le_visibleWidth {s : JStr} (h : ∀ c ∈ s, isCtrl c = false) :
    s.length ≤ visibleWidth s := by
  induction s with
  | nil => exact le_refl 0
  | cons c cs ih =>
    have h1 : 1 ≤ charWidth c := one_le_charWidth (h c (List.mem_cons_self c cs))
    have h2 := ih fun d hd => h d (List.mem_cons_of_mem _ hd)
    simp only [visibleWidth, List.map_cons, List.sum_cons, List.length_cons] at h2 ⊢
    omega

/-- C8 (amended): cell truncation leaves every control-free string whose
visible width fits the budget unchanged.  (As literally stated the claim
fails: `truncateCell` first rewrites CR/LF/TAB runs and control characters
to spaces, so a short string containing them is changed — see the
counterexample.) -/
theorem truncateCell_short_identity (s : JStr) (w : Nat)
    (hctrl : ∀ c ∈ s, isCtrl c = false) (hw : visibleWidth s ≤ w) :
    truncateCell s w = s := by
  have hnorm : normalizeCell s = s := by
    unfold normalizeCell
    rw [collapseRNT_id fun c hc => isRNT_false_of_isCtrl_false (hctrl c hc), ctrlToSpace_id hctrl]
  have hlen : s.length ≤ w := le_trans (length_le_visibleWidth hctrl) hw
  simp only [truncateCell, hnorm]
  rcases Nat.eq_zero_or_pos w with rfl | hpos
  · have hs : s = [] := List.eq_nil_of_length_eq_zero (Nat.le_zero.mp hlen)
    simp [hs]
  · rw [if_neg (by omega), if_pos hlen]

/-- C8 witness: a concrete short string is returned unchanged. -/
theorem truncateCell_short_identity_witness : truncateCell (js "hello") 8 = js "hello" :=
  truncateCell_short_identity (js "hello") 8 (by decide) (by decide)

/-- C8 counterexample: `"a\tb"` has visible width at most 10, yet
truncation to 10 rewrites the TAB to a space, contradicting the claim that
every string of fitting visible width is returned unchanged. -/
theorem truncateCell_control_counterexample :
    visibleWidth (js "a\tb") ≤ 10 ∧ truncateCell (js "a\tb") 10 ≠ js "a\tb" := by decide

/-- C7: JWT claim decoding is total and returns the no-claims value on
every absent token, every token without exactly three dot-separated
segments, and every token whose decoded middle segment fails JSON
parsing. -/
theorem decodeJwtPayload_malformed :
    decodeJwtPayload none = none ∧
    (∀ t : JStr, (jsSplit '.' t).length ≠ 3 → decodeJwtPayload (some t) = none) ∧
    (∀ t : JStr, jsonParse (jwtMiddleJson t) = none → decodeJwtPayload (some t) = none) := by
  refine ⟨rfl, ?_, ?_⟩
  · intro t h
    by_cases ht : t = []
    · simp [decodeJwtPayload, ht]
    · simp [decodeJwtPayload, ht, h]
  · intro t h
    by_cases ht : t = []
    · simp [decodeJwtPayload, ht]
    · by_cases h3 : (jsSplit '.' t).length = 3
      · simp [decodeJwtPayload, ht, h3, h]
      · simp [decodeJwtPayload, ht, h3]

/-- C7 witness: a 1-segment token and a token with non-JSON middle segment
both decode to the no-claims value. -/
theorem decodeJwtPayload_malformed_witness :
    decodeJwtPayload (some (js "ab")) = none ∧ decodeJwtPayload (some (js "a.!!!.c")) = none :=
  ⟨decodeJwtPayload_malformed.2.1 (js "ab") (by decide),
   decodeJwtPayload_malformed.2.2 (js "a.!!!.c") (by rfl)⟩

/-- C4 (amended): when aggregation yields no rows, exactly the one
placeholder row (`"-"`/`"-"`/`"-"`/`"quota"`/`"No data"`/`"-"`) is
rendered, and the row set handed to the layout engine is never empty.
(As literally stated the claim fails: the placeholder reads `"No data"`
only in its value field, not across provider/account/plan/metric — see
the counterexample.) -/
theorem finalRows_placeholder :
    (∀ results : List ProviderResult, buildRows results = [] → finalRows results = [placeholderRow]) ∧
    ∀ results : List ProviderResult, finalRows results ≠ [] := by
  constructor
  · intro results h
    simp [finalRows, h]
  · intro results
    by_cases h : (buildRows results).length = 0
    · simp [finalRows, h]
    · have : buildRows results ≠ [] := fun hn => h (by rw [hn]; rfl)
      simp [finalRows, h, this]

/-- C4 witness: an empty result list yields exactly the placeholder row. -/
theorem finalRows_placeholder_witness : finalRows [] = [placeholderRow] :=
  finalRows_placeholder.1 [] (by decide)

/-- C4 counterexample: at the concrete empty aggregate, exactly one
placeholder row is produced, but it does not read "No data" in its
provider, account, plan or metric fields (only in its value field). -/
theorem placeholder_fields_counterexample :
    finalRows [] = [placeholderRow] ∧
    placeholderRow.provider ≠ js "No data" ∧ placeholderRow.account ≠ js "No data" ∧
    placeholderRow.plan ≠ js "No data" ∧ placeholderRow.metric ≠ js "No data" ∧
    placeholderRow.value = js "No data" := by decide

/-- C3 (amended): a copilot response with an *absent* `quota_snapshots`
mapping normalizes to the optional SKU row plus exactly one
"No snapshot data" row; a *present but empty* mapping contributes no
snapshot rows and no placeholder (the truthy empty object skips the
fallback branch — see the counterexample). -/
theorem copilotRows_no_snapshots :
    ∀ (p : JStr) (cfg : AuthProviderConfig) (d : CopilotUserResponse),
      (d.quota_snapshots = none →
        copilotRows p cfg d =
          (if jsTruthy d.access_type_sku then
            [{ provider := p, account := copilotAccount p cfg d, plan := copilotPlan d,
               metric := js "sku", value := d.access_type_sku.getD [], reset := js "-" }]
           else []) ++
          [{ provider := p, account := copilotAccount p cfg d, plan := copilotPlan d,
             metric := js "quota", value := js "No snapshot data", reset := js "-" }]) ∧
      (d.quota_snapshots = some [] →
        copilotRows p cfg d =
          (if jsTruthy d.access_type_sku then
            [{ provider := p, account := copilotAccount p cfg d, plan := copilotPlan d,
               metric := js "sku", value := d.access_type_sku.getD [], reset := js "-" }]
           else [])) := by
  intro p cfg d
  constructor <;> intro h <;> simp [copilotRows, h]

/-- C3 witness: a concrete response without the mapping yields exactly the
"No snapshot data" row. -/
theorem copilotRows_no_snapshots_witness :
    copilotRows (js "github-copilot") {} { login := js "u" } =
      [{ provider := js "github-copilot", account := js "u", plan := js "unknown",
         metric := js "quota", value := js "No snapshot data", reset := js "-" }] := by
  have h := (copilotRows_no_snapshots (js "github-copilot") {} { login := js "u" }).1 rfl
  rw [h]; decide

/-- C3 counterexample: a response carrying an *empty* `quota_snapshots`
mapping (no snapshot buckets at all) produces zero rows — in particular
zero "No snapshot data" rows, not the one the claim demands. -/
theorem copilot_empty_snapshots_counterexample :
    copilotRows (js "github-copilot") {} { login := js "u", quota_snapshots := some [] } = [] ∧
    (copilotRows (js "github-copilot") {} { login := js "u", quota_snapshots := some [] }).countP
      (fun r => r.value == js "No snapshot data") = 0 := by decide


/-- The visible width of a concatenation. -/
theorem visibleWidth_append (a b : JStr) :
    visibleWidth (a ++ b) = visibleWidth a + visibleWidth b := by
  simp [visibleWidth]

/-- The visible width of a repeated character. -/
theorem visibleWidth_replicate (n : Nat) (c : Char) :
    visibleWidth (List.replicate n c) = n * charWidth c := by
  simp [visibleWidth, List.map_replicate, List.sum_replicate, smul_eq_mul]

/-- The rounded filled-block count never exceeds the bar width. -/
theorem jsRound_clamped_le (f : ℚ) (w : Nat) :
    (jsRound (max 0 (min 1 f) * w)).toNat ≤ w := by
  set c : ℚ := max 0 (min 1 f) with hc
  have hc0 : (0 : ℚ) ≤ c := le_max_left _ _
  have hc1 : c ≤ 1 := max_le (by norm_num) (min_le_left _ _)
  have hmul : c * (w : ℚ) ≤ (w : ℚ) := by
    calc c * (w : ℚ) ≤ 1 * (w : ℚ) :=
          mul_le_mul_of_nonneg_right hc1 (by positivity)
      _ = (w : ℚ) := one_mul _
  have hfloor : jsRound (c * w) ≤ (w : ℤ) := by
    rw [jsRound, ratFloor_eq]
    have : (⌊c * (w : ℚ) + 1 / 2⌋ : ℤ) < (w : ℤ) + 1 := by
      rw [Int.floor_lt]
      push_cast
      linarith
    omega
  exact Int.toNat_le.mpr hfloor

/-- C9: the progress bar is always exactly `width` characters (default 8):
`round(clamp(fraction, 0, 1) · width)` filled blocks followed by empty
blocks; consequently every row's bar cell is `"-"` (no fraction) or the
8-character bar, and its visible width never exceeds the Bar column cap
of 8. -/
theorem renderProgressBar_length :
    (∀ (f : ℚ) (w : Nat),
       (jsRound (max 0 (min 1 f) * w)).toNat ≤ w ∧
       renderProgressBar f w =
         List.replicate ((jsRound (max 0 (min 1 f) * w)).toNat) '█' ++
           List.replicate (w - (jsRound (max 0 (min 1 f) * w)).toNat) '░' ∧
       (renderProgressBar f w).length = w) ∧
    (∀ row : QuotaRow,
       (row.progressRemaining = none → barValue row = js "-") ∧
       (∀ q, row.progressRemaining = some q →
          barValue row = renderProgressBar q 8 ∧ (barValue row).length = 8) ∧
       visibleWidth (barValue row) ≤ 8) := by
  have hlen : ∀ (f : ℚ) (w : Nat), (renderProgressBar f w).length = w := by
    intro f w
    have hle := jsRound_clamped_le f w
    simp only [renderProgressBar, List.length_append, List.length_replicate]
    omega
  constructor
  · intro f w
    exact ⟨jsRound_clamped_le f w, rfl, hlen f w⟩
  · intro row
    refine ⟨fun h => by simp [barValue, h], fun q h => ⟨by simp [barValue, h], ?_⟩, ?_⟩
    · simp only [barValue, h]
      exact hlen q 8
    · cases hm : row.progressRemaining with
      | none => simp only [barValue, hm]; decide
      | some q =>
        have hle := jsRound_clamped_le q 8
        simp only [barValue, hm, renderProgressBar, visibleWidth_append, visibleWidth_replicate]
        have h1 : charWidth '█' = 1 := by decide
        have h2 : charWidth '░' = 1 := by decide
        rw [h1, h2]
        omega

/-- C9 witness: a bar-less row renders `"-"`, and the concrete bar for
fraction 1/2 has exactly 8 characters. -/
theorem renderProgressBar_length_witness :
    barValue { provider := [], account := [], plan := [], metric := [], value := [], reset := [] } =
      js "-" ∧
    (renderProgressBar (1 / 2) 8).length = 8 :=
  ⟨(renderProgressBar_length.2 _).1 rfl, (renderProgressBar_length.1 (1 / 2) 8).2.2⟩

/-- C6: when tier resolution succeeds, a project id resolves and the
per-model fetch returns non-2xx, the Tiered-Model adapter does not raise —
it returns the step-1 data with a soft `modelsError` — and normalization
produces the optional prompt-credits row plus exactly one soft-error row
with metric `"model_quotas"`. -/
theorem googleQuota_soft_error
    (provider : JStr) (config : AuthProviderConfig)
    (loadResp : HttpResp GoogleLoadCodeAssistResponse)
    (modelsResp : HttpResp FetchAvailableModelsResponse)
    (hacc : jsTruthy config.access = true)
    (hok : loadResp.ok = true)
    (hpid : jsTruthy (jsOrOpt config.projectId
      (cloudProjectId loadResp.body.cloudaicompanionProject)) = true)
    (hbad : modelsResp.ok = false) :
    fetchGoogleQuota config loadResp modelsResp =
      .ok { loadData := loadResp.body, modelsData := none,
            modelsError := some (googleModelsErrorMsg modelsResp.status) } ∧
    googleRows provider config
        { loadData := loadResp.body, modelsData := none,
          modelsError := some (googleModelsErrorMsg modelsResp.status) } =
      (match loadResp.body.availablePromptCredits with
       | some c =>
         [{ provider := provider, account := googleAccount provider config,
            plan := googlePlan loadResp.body, metric := js "prompt_credits",
            value := qToString c, reset := js "-" }]
       | none => []) ++
      [{ provider := provider, account := googleAccount provider config,
         plan := googlePlan loadResp.body, metric := js "model_quotas",
         value := googleModelsErrorMsg modelsResp.status, reset := js "-" }] ∧
    (googleRows provider config
        { loadData := loadResp.body, modelsData := none,
          modelsError := some (googleModelsErrorMsg modelsResp.status) }).countP
      (fun r => r.metric == js "model_quotas") = 1 := by
  have hmsg : jsTruthy (some (googleModelsErrorMsg modelsResp.status)) = true := by
    have h1 : (js "fetchAvailableModels failed (") ≠ [] := by decide
    simp [jsTruthy, googleModelsErrorMsg, h1]
  have hrows : googleRows provider config
      { loadData := loadResp.body, modelsData := none,
        modelsError := some (googleModelsErrorMsg modelsResp.status) } =
      (match loadResp.body.availablePromptCredits with
       | some c =>
         [{ provider := provider, account := googleAccount provider config,
            plan := googlePlan loadResp.body, metric := js "prompt_credits",
            value := qToString c, reset := js "-" }]
       | none => []) ++
      [{ provider := provider, account := googleAccount provider config,
         plan := googlePlan loadResp.body, metric := js "model_quotas",
         value := googleModelsErrorMsg modelsResp.status, reset := js "-" }] := by
    cases hcred : loadResp.body.availablePromptCredits with
    | none => simp [googleRows, collectGoogleModelRows, hmsg, hcred]
    | some c => simp [googleRows, collectGoogleModelRows, hmsg, hcred]
  refine ⟨?_, hrows, ?_⟩
  · simp [fetchGoogleQuota, hacc, hok, hpid, hbad]
  · rw [hrows]
    have hf : (fun r : QuotaRow => r.metric == js "model_quotas")
        { provider := provider, account := googleAccount provider config,
          plan := googlePlan loadResp.body, metric := js "model_quotas",
          value := googleModelsErrorMsg modelsResp.status, reset := js "-" } = true := by
      simp
    cases hcred : loadResp.body.availablePromptCredits with
    | none => simp [List.countP_cons, List.countP_nil]
    | some c =>
      have hg : (fun r : QuotaRow => r.metric == js "model_quotas")
          { provider := provider, account := googleAccount provider config,
            plan := googlePlan loadResp.body, metric := js "prompt_credits",
            value := qToString c, reset := js "-" } = false := by
        simp only [QuotaRow.mk.injEq]
        decide
      simp [List.countP_cons, List.countP_nil, hg]

/-- Concrete credential record for the C6 witness. -/
def c6Config : AuthProviderConfig := { access := some (js "tok"), projectId := some (js "proj") }

/-- Concrete successful step-1 response for the C6 witness. -/
def c6Load : HttpResp GoogleLoadCodeAssistResponse := ⟨true, 200, {}⟩

/-- Concrete failed (HTTP 500) step-2 response for the C6 witness. -/
def c6Models : HttpResp FetchAvailableModelsResponse := ⟨false, 500, {}⟩

/-- C6 witness: at a concrete HTTP-500 step-2 response the adapter returns
(rather than raises) the step-1 data plus the soft error string. -/
theorem googleQuota_soft_error_witness :
    fetchGoogleQuota c6Config c6Load c6Models =
      .ok { loadData := {}, modelsData := none,
            modelsError := some (googleModelsErrorMsg 500) } :=
  (googleQuota_soft_error (js "google-gemini-cli") c6Config c6Load c6Models
    (by decide) rfl (by decide) rfl).1


/-- The number of adjacent provider transitions in a provider sequence,
seeded with the `lastProvider` state of the rendering loop. -/
def transCount : Option JStr → List JStr → Nat
  | _, [] => 0
  | none, p :: ps => transCount (some p) ps
  | some lp, p :: ps => (if p ≠ lp then 1 else 0) + transCount (some p) ps

/-- Each rendered data section contributes one line per row plus one
group-separator line per provider transition. -/
theorem dataLines_length (mw : Option Nat) (widths : List Nat) (sep : JStr) :
    ∀ (rows : List QuotaRow) (last : Option JStr),
      (dataLines mw widths sep rows last).length =
        rows.length + transCount last (rows.map (·.provider)) := by
  intro rows
  induction rows with
  | nil => intro last; cases last <;> simp [dataLines, transCount]
  | cons row rest ih =>
    intro last
    cases last with
    | none =>
      simp [dataLines, transCount, ih]
      omega
    | some lp =>
      by_cases hp : row.provider = lp
      · simp [dataLines, transCount, hp, ih]
        omega
      · simp [dataLines, transCount, hp, ih]
        omega

/-- C5: the rendered table has exactly 5 framing lines (title, three
borders, header row) plus one data line per quota row plus one
provider-group separator per adjacent-provider transition. -/
theorem renderQuotaTable_line_count (rows : List QuotaRow) (mw : Option Nat) :
    (renderQuotaTable rows mw).length =
      5 + rows.length + transCount none (rows.map (·.provider)) := by
  simp only [renderQuotaTable, List.length_append, List.length_cons, List.length_nil,
    dataLines_length]
  omega


/-- The hard truncation respects its width budget. -/
theorem visibleWidth_truncateToWidth (s : JStr) (m : Nat) :
    visibleWidth (truncateToWidth s m) ≤ m := by
  induction s generalizing m with
  | nil => simp [truncateToWidth, visibleWidth]
  | cons c cs ih =>
    simp only [truncateToWidth]
    split
    · next h =>
      have hih := ih (m - charWidth c)
      simp only [visibleWidth, List.map_cons, List.sum_cons] at hih ⊢
      omega
    · simp [visibleWidth]

/-- The conditional hard truncation respects a non-zero budget. -/
theorem visibleWidth_jsMaxTrunc {m : Nat} (hm : m ≠ 0) (s : JStr) :
    visibleWidth (jsMaxTrunc (some m) s) ≤ m := by
  simp [jsMaxTrunc, hm, visibleWidth_truncateToWidth]

/-- Every rendered row line respects a non-zero budget. -/
theorem visibleWidth_renderRow {m : Nat} (hm : m ≠ 0) (widths : List Nat) (cols : List JStr) :
    visibleWidth (renderRow (some m) widths cols) ≤ m :=
  visibleWidth_jsMaxTrunc hm _

/-- Every line of the data section respects a non-zero budget. -/
theorem dataLines_width_le {m : Nat} (hm : m ≠ 0) (widths : List Nat) (sep : JStr) :
    ∀ (rows : List QuotaRow) (last : Option JStr) (l : JStr),
      l ∈ dataLines (some m) widths sep rows last → visibleWidth l ≤ m := by
  intro rows
  induction rows with
  | nil => intro last l h; simp [dataLines] at h
  | cons row rest ih =>
    intro last l h
    cases last with
    | none =>
      simp only [dataLines, List.nil_append, List.mem_cons] at h
      rcases h with h | h
      · subst h; exact visibleWidth_renderRow hm widths _
      · exact ih _ l h
    | some lp =>
      simp only [dataLines, List.mem_append, List.mem_cons] at h
      by_cases hp : row.provider ≠ lp
      · rw [if_pos hp] at h
        simp only [themeFg, List.mem_singleton] at h
        rcases h with h | h | h
        · subst h; exact visibleWidth_jsMaxTrunc hm _
        · subst h; exact visibleWidth_renderRow hm widths _
        · exact ih _ l h
      · rw [if_neg hp] at h
        simp only [List.not_mem_nil, false_or] at h
        rcases h with h | h
        · subst h; exact visibleWidth_renderRow hm widths _
        · exact ih _ l h

/-- C2: with a target width of at least 80 (the sum of the seven column
floors, 58, plus the fixed overhead 3·7+1 = 22), every line produced by
`renderQuotaTable` has visible width at most the target (the title line is
15 columns; every other line passes through the final hard truncation). -/
theorem renderQuotaTable_width_le (rows : List QuotaRow) (m : Nat) (hm : 80 ≤ m) :
    ∀ l ∈ renderQuotaTable rows (some m), visibleWidth l ≤ m := by
  intro l hl
  have hm0 : m ≠ 0 := by omega
  simp only [renderQuotaTable, themeFg, themeBold, List.append_assoc, List.mem_append,
    List.mem_cons, List.mem_singleton, List.not_mem_nil, or_false] at hl
  rcases hl with (h | h | h | h) | h | h
  · subst h
    have h15 : visibleWidth (js "Provider Quotas") = 15 := by decide
    omega
  · subst h; exact visibleWidth_jsMaxTrunc hm0 _
  · subst h; exact visibleWidth_renderRow hm0 _ _
  · subst h; exact visibleWidth_jsMaxTrunc hm0 _
  · exact dataLines_width_le hm0 _ _ rows none l h
  · subst h; exact visibleWidth_jsMaxTrunc hm0 _

/-- C2 witness: the concrete empty table at target width 80. -/
theorem renderQuotaTable_width_le_witness : visibleWidth (js "Provider Quotas") ≤ 80 :=
  renderQuotaTable_width_le [] 80 (by decide) (js "Provider Quotas") (by decide)


/-! ## Shrink-loop lemmas (claims about part_002 lines 443-457) -/

/-- Out-of-range `getD` is the default. -/
theorem getD_eq_zero_of_le : ∀ {l : List Nat} {i : Nat}, l.length ≤ i → l.getD i 0 = 0
  | [], i, _ => by cases i <;> rfl
  | c :: cs, 0, h => by simp at h
  | c :: cs, i + 1, h => by
    simp only [List.getD_cons_succ]
    exact getD_eq_zero_of_le (by simpa using h)

/-- A positive `getD` entry is in range. -/
theorem getD_pos_lt {l : List Nat} {i : Nat} (h : 0 < l.getD i 0) : i < l.length := by
  by_contra hn
  push_neg at hn
  rw [getD_eq_zero_of_le hn] at h
  exact absurd h (lt_irrefl 0)

/-- `getD` after `set`. -/
theorem getD_set (l : List Nat) (i j a : Nat) :
    (l.set i a).getD j 0 = if i = j ∧ i < l.length then a else l.getD j 0 := by
  induction l generalizing i j with
  | nil => simp [List.set]
  | cons c cs ih =>
    cases i with
    | zero =>
      cases j with
      | zero => simp [List.set]
      | succ j' => simp [List.set]
    | succ i' =>
      cases j with
      | zero => simp [List.set]
      | succ j' =>
        simp only [List.set, List.getD_cons_succ, ih i' j', List.length_cons]
        by_cases hc : i' = j' ∧ i' < cs.length
        · rw [if_pos hc, if_pos (by omega)]
        · rw [if_neg hc, if_neg (by omega)]

/-- Decrementing an in-range positive entry lowers the sum by exactly 1. -/
theorem sum_set_sub (l : List Nat) (i : Nat) (h : 0 < l.getD i 0) :
    (l.set i (l.getD i 0 - 1)).sum + 1 = l.sum := by
  induction l generalizing i with
  | nil => simp [List.getD] at h
  | cons c cs ih =>
    cases i with
    | zero =>
      simp only [List.getD_cons_zero] at h
      simp only [List.getD_cons_zero, List.set, List.sum_cons]
      omega
    | succ i' =>
      simp only [List.getD_cons_succ] at h
      have := ih i' h
      simp only [List.getD_cons_succ, List.set, List.sum_cons]
      omega

/-- A shrink pass never increases any column. -/
theorem shrinkPass_getD_le (m : Nat) :
    ∀ (order : List Nat) (w : List Nat) (r : Bool) (j : Nat),
      ((shrinkPass m w r order).1).getD j 0 ≤ w.getD j 0 := by
  intro order
  induction order with
  | nil => intro w r j; exact le_refl _
  | cons i rest ih =>
    intro w r j
    by_cases hcond : minColumnWidths.getD i 0 < w.getD i 0
    · have hdec : ∀ k, (w.set i (w.getD i 0 - 1)).getD k 0 ≤ w.getD k 0 := by
        intro k
        rw [getD_set]
        split
        · next hc => rcases hc with ⟨rfl, _⟩; omega
        · exact le_refl _
      by_cases hb : totalWidth (w.set i (w.getD i 0 - 1)) ≤ m
      · simp only [shrinkPass, if_pos hcond, if_pos hb]
        exact hdec j
      · simp only [shrinkPass, if_pos hcond, if_neg hb]
        exact le_trans (ih _ true j) (hdec j)
    · simp only [shrinkPass, if_neg hcond]
      exact ih w r j

/-- A shrink pass never increases the total sum. -/
theorem shrinkPass_sum_le (m : Nat) :
    ∀ (order : List Nat) (w : List Nat) (r : Bool),
      ((shrinkPass m w r order).1).sum ≤ w.sum := by
  intro order
  induction order with
  | nil => intro w r; exact le_refl _
  | cons i rest ih =>
    intro w r
    by_cases hcond : minColumnWidths.getD i 0 < w.getD i 0
    · have hpos : 0 < w.getD i 0 := by omega
      have hsum := sum_set_sub w i hpos
      by_cases hb : totalWidth (w.set i (w.getD i 0 - 1)) ≤ m
      · simp only [shrinkPass, if_pos hcond, if_pos hb]
        omega
      · simp only [shrinkPass, if_pos hcond, if_neg hb]
        have := ih (w.set i (w.getD i 0 - 1)) true
        omega
    · simp only [shrinkPass, if_neg hcond]
      exact ih w r

/-- Once the `reduced` flag is set it stays set. -/
theorem shrinkPass_true_of_r_true (m : Nat) :
    ∀ (order : List Nat) (w : List Nat), (shrinkPass m w true order).2 = true := by
  intro order
  induction order with
  | nil => intro w; rfl
  | cons i rest ih =>
    intro w
    by_cases hcond : minColumnWidths.getD i 0 < w.getD i 0
    · by_cases hb : totalWidth (w.set i (w.getD i 0 - 1)) ≤ m
      · simp only [shrinkPass, if_pos hcond, if_pos hb]
      · simp only [shrinkPass, if_pos hcond, if_neg hb]
        exact ih _
    · simp only [shrinkPass, if_neg hcond]
      exact ih w

/-- A pass that reports no progress left the widths unchanged, and every
column in the order already sat at its floor. -/
theorem shrinkPass_false_eq (m : Nat) :
    ∀ (order : List Nat) (w : List Nat), (shrinkPass m w false order).2 = false →
      (shrinkPass m w false order).1 = w ∧
        ∀ i ∈ order, w.getD i 0 ≤ minColumnWidths.getD i 0 := by
  intro order
  induction order with
  | nil => intro w _; exact ⟨rfl, by simp⟩
  | cons i rest ih =>
    intro w h
    by_cases hcond : minColumnWidths.getD i 0 < w.getD i 0
    · exfalso
      by_cases hb : totalWidth (w.set i (w.getD i 0 - 1)) ≤ m
      · simp only [shrinkPass, if_pos hcond, if_pos hb] at h
        exact Bool.noConfusion h
      · simp only [shrinkPass, if_pos hcond, if_neg hb,
          shrinkPass_true_of_r_true] at h
        exact Bool.noConfusion h
    · simp only [shrinkPass, if_neg hcond] at h ⊢
      obtain ⟨h1, h2⟩ := ih w h
      refine ⟨h1, fun k hk => ?_⟩
      rcases List.mem_cons.mp hk with rfl | hk'
      · omega
      · exact h2 k hk'

/-- A pass that reports progress strictly lowered the sum. -/
theorem shrinkPass_true_sum_lt (m : Nat) :
    ∀ (order : List Nat) (w : List Nat), (shrinkPass m w false order).2 = true →
      ((shrinkPass m w false order).1).sum < w.sum := by
  intro order
  induction order with
  | nil => intro w h; simp [shrinkPass] at h
  | cons i rest ih =>
    intro w h
    by_cases hcond : minColumnWidths.getD i 0 < w.getD i 0
    · have hpos : 0 < w.getD i 0 := by omega
      have hsum := sum_set_sub w i hpos
      by_cases hb : totalWidth (w.set i (w.getD i 0 - 1)) ≤ m
      · simp only [shrinkPass, if_pos hcond, if_pos hb]
        omega
      · simp only [shrinkPass, if_pos hcond, if_neg hb]
        have := shrinkPass_sum_le m rest (w.set i (w.getD i 0 - 1)) true
        omega
    · simp only [shrinkPass, if_neg hcond] at h ⊢
      exact ih w h

/-- A pass never drops a column below its floor (nor below its starting
value, whichever is lower). -/
theorem shrinkPass_min_le (m : Nat) :
    ∀ (order : List Nat) (w : List Nat) (r : Bool) (j : Nat),
      min (w.getD j 0) (minColumnWidths.getD j 0) ≤ ((shrinkPass m w r order).1).getD j 0 := by
  intro order
  induction order with
  | nil => intro w r j; exact min_le_left _ _
  | cons i rest ih =>
    intro w r j
    by_cases hcond : minColumnWidths.getD i 0 < w.getD i 0
    · have hkey : ∀ k, min (w.getD k 0) (minColumnWidths.getD k 0) ≤
          min ((w.set i (w.getD i 0 - 1)).getD k 0) (minColumnWidths.getD k 0) := by
        intro k
        rw [getD_set]
        split
        · next hc => rcases hc with ⟨rfl, _⟩; omega
        · exact le_refl _
      by_cases hb : totalWidth (w.set i (w.getD i 0 - 1)) ≤ m
      · simp only [shrinkPass, if_pos hcond, if_pos hb]
        exact le_trans (hkey j) (min_le_left _ _)
      · simp only [shrinkPass, if_pos hcond, if_neg hb]
        exact le_trans (hkey j) (ih _ true j)
    · simp only [shrinkPass, if_neg hcond]
      exact ih w r j

/-- Columns outside the order are untouched by a pass. -/
theorem shrinkPass_getD_of_not_mem (m : Nat) :
    ∀ (order : List Nat) (w : List Nat) (r : Bool) (j : Nat), j ∉ order →
      ((shrinkPass m w r order).1).getD j 0 = w.getD j 0 := by
  intro order
  induction order with
  | nil => intro w r j _; rfl
  | cons i rest ih =>
    intro w r j hj
    have hji : j ≠ i := fun h => hj (h ▸ List.mem_cons_self i rest)
    have hjr : j ∉ rest := fun h => hj (List.mem_cons_of_mem _ h)
    by_cases hcond : minColumnWidths.getD i 0 < w.getD i 0
    · have hkeep : (w.set i (w.getD i 0 - 1)).getD j 0 = w.getD j 0 := by
        rw [getD_set, if_neg (by tauto)]
      by_cases hb : totalWidth (w.set i (w.getD i 0 - 1)) ≤ m
      · simp only [shrinkPass, if_pos hcond, if_pos hb]
        exact hkeep
      · simp only [shrinkPass, if_pos hcond, if_neg hb]
        rw [ih _ true j hjr, hkeep]
    · simp only [shrinkPass, if_neg hcond]
      exact ih w r j hjr

/-- The shrink loop never increases any column. -/
theorem shrinkLoop_getD_le (m : Nat) :
    ∀ (fuel : Nat) (w : List Nat) (j : Nat),
      (shrinkLoop m fuel w).getD j 0 ≤ w.getD j 0 := by
  intro fuel
  induction fuel with
  | zero => intro w j; exact le_refl _
  | succ f ih =>
    intro w j
    simp only [shrinkLoop]
    split
    · exact le_refl _
    · rcases hpass : shrinkPass m w false shrinkOrder with ⟨w', b⟩
      have hle := shrinkPass_getD_le m shrinkOrder w false j
      rw [hpass] at hle
      cases b with
      | true => exact le_trans (ih w' j) hle
      | false => exact hle

/-- The shrink loop never drops a column below its floor (nor below its
starting value, whichever is lower). -/
theorem shrinkLoop_min_le (m : Nat) :
    ∀ (fuel : Nat) (w : List Nat) (j : Nat),
      min (w.getD j 0) (minColumnWidths.getD j 0) ≤ (shrinkLoop m fuel w).getD j 0 := by
  intro fuel
  induction fuel with
  | zero => intro w j; exact min_le_left _ _
  | succ f ih =>
    intro w j
    simp only [shrinkLoop]
    split
    · exact min_le_left _ _
    · rcases hpass : shrinkPass m w false shrinkOrder with ⟨w', b⟩
      have hmin := shrinkPass_min_le m shrinkOrder w false j
      rw [hpass] at hmin
      cases b with
      | true =>
        refine le_trans (le_min hmin (min_le_right _ _)) (ih w' j)
      | false => exact hmin

/-- Columns outside the shrink order are untouched by the loop. -/
theorem shrinkLoop_getD_of_not_mem (m : Nat) :
    ∀ (fuel : Nat) (w : List Nat) (j : Nat), j ∉ shrinkOrder →
      (shrinkLoop m fuel w).getD j 0 = w.getD j 0 := by
  intro fuel
  induction fuel with
  | zero => intro w j _; rfl
  | succ f ih =>
    intro w j hj
    simp only [shrinkLoop]
    split
    · rfl
    · rcases hpass : shrinkPass m w false shrinkOrder with ⟨w', b⟩
      have hkeep := shrinkPass_getD_of_not_mem m shrinkOrder w false j hj
      rw [hpass] at hkeep
      cases b with
      | true => rw [ih w' j hj, hkeep]
      | false => exact hkeep

/-- With adequate fuel, the loop stops only because the budget is met or
because every shrinkable column sits at its floor. -/
theorem shrinkLoop_stop (m : Nat) :
    ∀ (fuel : Nat) (w : List Nat), w.sum + 1 ≤ fuel →
      totalWidth (shrinkLoop m fuel w) ≤ m ∨
        ∀ i ∈ shrinkOrder, (shrinkLoop m fuel w).getD i 0 ≤ minColumnWidths.getD i 0 := by
  intro fuel
  induction fuel with
  | zero => intro w h; omega
  | succ f ih =>
    intro w hf
    simp only [shrinkLoop]
    split
    · next h => exact Or.inl h
    · next h =>
      rcases hpass : shrinkPass m w false shrinkOrder with ⟨w', b⟩
      cases b with
      | true =>
        have hlt := shrinkPass_true_sum_lt m shrinkOrder w (by rw [hpass])
        rw [hpass] at hlt
        have hlt' : w'.sum < w.sum := hlt
        exact ih w' (by omega)
      | false =>
        have hfalse := shrinkPass_false_eq m shrinkOrder w (by rw [hpass])
        rw [hpass] at hfalse
        have heq : w' = w := hfalse.1
        right
        intro i hi
        show w'.getD i 0 ≤ minColumnWidths.getD i 0
        rw [heq]
        exact hfalse.2 i hi

/-- C10 core: the loop's value is independent of the fuel once the fuel
exceeds the width sum — each productive pass strictly lowers the sum, so
`sum + 1` iterations always reach the loop's fixpoint. -/
theorem shrinkLoop_stable (m : Nat) :
    ∀ (n : Nat) (w : List Nat), w.sum ≤ n → ∀ fuel, w.sum + 1 ≤ fuel →
      shrinkLoop m fuel w = shrinkLoop m (w.sum + 1) w := by
  intro n
  induction n with
  | zero =>
    intro w hw fuel hfuel
    obtain ⟨f, rfl⟩ : ∃ f, fuel = f + 1 := ⟨fuel - 1, by omega⟩
    have h0 : w.sum = 0 := by omega
    rw [h0]
    simp only [shrinkLoop]
    split
    · rfl
    · rcases hpass : shrinkPass m w false shrinkOrder with ⟨w', b⟩
      cases b with
      | true =>
        have hlt := shrinkPass_true_sum_lt m shrinkOrder w (by rw [hpass])
        rw [hpass] at hlt
        omega
      | false => rfl
  | succ n ih =>
    intro w hw fuel hfuel
    obtain ⟨f, rfl⟩ : ∃ f, fuel = f + 1 := ⟨fuel - 1, by omega⟩
    simp only [shrinkLoop]
    split
    · rfl
    · rcases hpass : shrinkPass m w false shrinkOrder with ⟨w', b⟩
      cases b with
      | true =>
        have hlt := shrinkPass_true_sum_lt m shrinkOrder w (by rw [hpass])
        rw [hpass] at hlt
        have hlt' : w'.sum < w.sum := hlt
        show shrinkLoop m f w' = shrinkLoop m w.sum w'
        rw [ih w' (by omega) f (by omega), ih w' (by omega) w.sum (by omega)]
      | false => rfl

/-- C10: the column-shrink loop terminates for every width vector and
target: a pass that reports progress strictly decreases the width sum, and
with any two fuels above the sum the fuel-indexed loop yields the same
value, so the layout computation is a total function of its inputs. -/
theorem shrink_terminates :
    (∀ (m : Nat) (w : List Nat), (shrinkPass m w false shrinkOrder).2 = true →
       ((shrinkPass m w false shrinkOrder).1).sum < w.sum) ∧
    (∀ (m : Nat) (w : List Nat) (fuel₁ fuel₂ : Nat),
       w.sum + 1 ≤ fuel₁ → w.sum + 1 ≤ fuel₂ →
       shrinkLoop m fuel₁ w = shrinkLoop m fuel₂ w) :=
  ⟨fun m w h => shrinkPass_true_sum_lt m shrinkOrder w h,
   fun m w f₁ f₂ h₁ h₂ =>
     (shrinkLoop_stable m w.sum w (le_refl _) f₁ h₁).trans
       (shrinkLoop_stable m w.sum w (le_refl _) f₂ h₂).symm⟩

/-- C10 witness: two different adequate fuels at a concrete width vector
give the same result. -/
theorem shrink_terminates_witness :
    shrinkLoop 1 19 [9, 9] = shrinkLoop 1 25 [9, 9] :=
  shrink_terminates.2 1 [9, 9] 19 25 (by decide) (by decide)


/-- When the budget is exceeded and the Account column (index 1) is above
its floor, the loop's very first decrement hits Account — the code's
`shrinkOrder` begins with index 1 — so Account ends strictly below its
starting width. -/
theorem shrinkLoop_account_lt (m : Nat) (fuel : Nat) (w : List Nat)
    (hfuel : 1 ≤ fuel) (hgt : m < totalWidth w)
    (hacc : minColumnWidths.getD 1 0 < w.getD 1 0) :
    (shrinkLoop m fuel w).getD 1 0 < w.getD 1 0 := by
  obtain ⟨f, rfl⟩ : ∃ f, fuel = f + 1 := ⟨fuel - 1, by omega⟩
  have hpos : 0 < w.getD 1 0 := by omega
  have hw'1 : (w.set 1 (w.getD 1 0 - 1)).getD 1 0 = w.getD 1 0 - 1 := by
    rw [getD_set, if_pos ⟨rfl, getD_pos_lt hpos⟩]
  simp only [shrinkLoop]
  rw [if_neg (by omega)]
  have horder : shrinkOrder = 1 :: [4, 3, 6, 0, 2] := rfl
  have hstep : shrinkPass m w false shrinkOrder =
      (if totalWidth (w.set 1 (w.getD 1 0 - 1)) ≤ m
       then (w.set 1 (w.getD 1 0 - 1), true)
       else shrinkPass m (w.set 1 (w.getD 1 0 - 1)) true [4, 3, 6, 0, 2]) := by
    rw [horder, shrinkPass, if_pos hacc]
  rw [hstep]
  by_cases hb : totalWidth (w.set 1 (w.getD 1 0 - 1)) ≤ m
  · rw [if_pos hb]
    show (shrinkLoop m f (w.set 1 (w.getD 1 0 - 1))).getD 1 0 < w.getD 1 0
    have := shrinkLoop_getD_le m f (w.set 1 (w.getD 1 0 - 1)) 1
    omega
  · rw [if_neg hb]
    rcases hp2 : shrinkPass m (w.set 1 (w.getD 1 0 - 1)) true [4, 3, 6, 0, 2] with ⟨w'', b⟩
    have hle : w''.getD 1 0 ≤ w.getD 1 0 - 1 := by
      have h := shrinkPass_getD_le m [4, 3, 6, 0, 2] (w.set 1 (w.getD 1 0 - 1)) true 1
      rw [hp2] at h
      exact le_trans h (le_of_eq hw'1)
    cases b with
    | true =>
      show (shrinkLoop m f w'').getD 1 0 < w.getD 1 0
      have := shrinkLoop_getD_le m f w'' 1
      omega
    | false =>
      show w''.getD 1 0 < w.getD 1 0
      omega

/-- C1 (amended): when a non-zero target width is supplied, the engine
round-robins over the columns in the fixed order Account, Value, Metric,
Reset/Note, Provider, Plan (the Bar column never shrinks), decrementing
each column above its floor by one unit and re-checking the total after
each decrement; the final widths never exceed the natural widths, never
fall below a column's floor (for columns that started at or above it — in
particular Account never drops below its floor of 10), the loop stops only
with the budget met or every shrinkable column at its floor, and whenever
shrinking happens at all with Account above its floor, Account is shrunk
first (so it is *not* shrunk last as the claim stated — see the
counterexample). -/
theorem finalWidths_shrink_spec (rows : List QuotaRow) (m : Nat) (hm : 0 < m) :
    (∀ j, (finalWidths rows (some m)).getD j 0 ≤ (initialWidths rows).getD j 0) ∧
    (∀ j, min ((initialWidths rows).getD j 0) (minColumnWidths.getD j 0) ≤
      (finalWidths rows (some m)).getD j 0) ∧
    (finalWidths rows (some m)).getD 5 0 = (initialWidths rows).getD 5 0 ∧
    (totalWidth (finalWidths rows (some m)) ≤ m ∨
      ∀ i ∈ shrinkOrder, (finalWidths rows (some m)).getD i 0 ≤ minColumnWidths.getD i 0) ∧
    (m < totalWidth (initialWidths rows) →
      minColumnWidths.getD 1 0 < (initialWidths rows).getD 1 0 →
      (finalWidths rows (some m)).getD 1 0 < (initialWidths rows).getD 1 0) := by
  by_cases hcnd : 0 < m ∧ m < totalWidth (initialWidths rows)
  · have hfw : finalWidths rows (some m) =
        shrinkLoop m (totalWidth (initialWidths rows)) (initialWidths rows) := by
      simp [finalWidths, hcnd]
    have hfuel : (initialWidths rows).sum + 1 ≤ totalWidth (initialWidths rows) := by
      simp [totalWidth]
    refine ⟨fun j => ?_, fun j => ?_, ?_, ?_, fun h1 h2 => ?_⟩
    · rw [hfw]; exact shrinkLoop_getD_le m _ _ j
    · rw [hfw]; exact shrinkLoop_min_le m _ _ j
    · rw [hfw]; exact shrinkLoop_getD_of_not_mem m _ _ 5 (by decide)
    · rw [hfw]; exact shrinkLoop_stop m _ _ hfuel
    · rw [hfw]
      exact shrinkLoop_account_lt m _ _ (by omega) hcnd.2 h2
  · have hfw : finalWidths rows (some m) = initialWidths rows := by
      simp only [finalWidths]
      rw [if_neg hcnd]
    have hle : totalWidth (initialWidths rows) ≤ m := by
      rcases not_and_or.mp hcnd with h | h
      · omega
      · omega
    refine ⟨fun j => ?_, fun j => ?_, ?_, ?_, fun h1 h2 => ?_⟩
    · rw [hfw]
    · rw [hfw]; exact min_le_left _ _
    · rw [hfw]
    · rw [hfw]; exact Or.inl hle
    · omega

/-- The shrink priority order asserted by the claim: Value, Reset/Note,
Metric, Bar, Provider, Plan, and Account last (column indices
4, 6, 3, 5, 0, 2, 1). -/
def claimedShrinkOrder : List Nat := [4, 6, 3, 5, 0, 2, 1]

/-- The shrink loop as the claim describes it: identical to `shrinkLoop`
except for the column priority order. -/
def claimedShrinkLoop (maxWidth : Nat) : Nat → List Nat → List Nat
  | 0, w => w
  | fuel + 1, w =>
    if totalWidth w ≤ maxWidth then w
    else
      match shrinkPass maxWidth w false claimedShrinkOrder with
      | (w', true) => claimedShrinkLoop maxWidth fuel w'
      | (w', false) => w'

/-- The final column widths a layout following the claimed order would
produce. -/
def claimedFinalWidths (rows : List QuotaRow) (m : Nat) : List Nat :=
  let w := initialWidths rows
  if 0 < m ∧ m < totalWidth w then claimedShrinkLoop m (totalWidth w) w else w

/-- A concrete row whose natural Account width is 18 and natural Value
width is 14, driving the layout one unit over an 84-column budget. -/
def shrinkDemoRow : QuotaRow :=
  { provider := js "p", account := js "aaaaaaaaaaaaaaaaaa", plan := js "",
    metric := js "m", value := js "vvvvvvvvvvvvvv", reset := js "" }

/-- C1 counterexample: at a concrete row and target width 84 the code
shrinks Account (to 17) while Value stays above its floor (at 14), and the
widths differ from what the claimed order (Value first, Account last)
would produce — so the claimed priority order is not the code's. -/
theorem shrink_order_counterexample :
    claimedFinalWidths [shrinkDemoRow] 84 ≠ finalWidths [shrinkDemoRow] (some 84) ∧
    (finalWidths [shrinkDemoRow] (some 84)).getD 1 0 <
      (initialWidths [shrinkDemoRow]).getD 1 0 ∧
    minColumnWidths.getD 4 0 < (finalWidths [shrinkDemoRow] (some 84)).getD 4 0 := by decide

/-- C1 witness: the amended theorem applied at the concrete demo row and
target width 84 (Bar column untouched). -/
theorem finalWidths_shrink_spec_witness :
    (finalWidths [shrinkDemoRow] (some 84)).getD 5 0 =
      (initialWidths [shrinkDemoRow]).getD 5 0 :=
  (finalWidths_shrink_spec [shrinkDemoRow] 84 (by decide)).2.2.1

end Quota
